import Mathlib

/-!
Verification of the mustaine Hessian 1.0.2 encoder (src/mustaine/encoder.py).

The source is Python 2 code (it uses `six`, byte/`str` semantics such as
`value.encode('ascii')` raising `UnicodeDecodeError`, and `str + bytes`
concatenation), so the embedding models Python 2 runtime types:
`str` is a byte string, `unicode` is a decoded character sequence, and
`bool` is a subclass of `int`.

Bytes are modeled as `List Nat` (each entry a value in 0..255); machine
integers are `Int`/`Nat` with explicit range guards where `struct.pack`
would raise for an out-of-range argument.
-/

/-- A Python 2 byte string: a list of byte values. -/
abbrev Bytes := List Nat

/-- Character codes of an ASCII Lean string literal, used to transcribe the
Python `str` literals of the source (type tags, method-name fragments). -/
def ascii (s : String) : Bytes := s.data.map (fun c => c.toNat)

/-- The errors the encoder can raise.  In the source all of them are Python
exceptions: `unsupportedType` is the TypeError "mustaine.encoder cannot
serialize %s", `stringEncodingError` is the TypeError raised from
`encode_string` for non-ASCII byte strings, `typeError` covers the other
runtime TypeErrors (non-string call header keys; byte-string + tuple
concatenation), and `structError` is `struct.error` for an out-of-range
`struct.pack` argument. -/
inductive EncErr where
  | unsupportedType (typeName : String)
  | stringEncodingError
  | typeError (msg : String)
  | structError
deriving DecidableEq

instance exceptDecEq {ε α : Type} [DecidableEq ε] [DecidableEq α] :
    DecidableEq (Except ε α) := fun a b =>
  match a, b with
  | .ok x, .ok y =>
    if h : x = y then isTrue (by rw [h])
    else isFalse (by intro hc; cases hc; exact h rfl)
  | .error x, .error y =>
    if h : x = y then isTrue (by rw [h])
    else isFalse (by intro hc; cases hc; exact h rfl)
  | .ok _, .error _ => isFalse (by intro hc; cases hc)
  | .error _, .ok _ => isFalse (by intro hc; cases hc)

/-- Big-endian 16-bit byte pair for an in-range argument (`struct.pack '>H'`
layout). -/
def u16be (n : Nat) : Bytes := [n / 256 % 256, n % 256]

/-- Big-endian 32-bit bytes of an unsigned value below 2^32. -/
def u32be (n : Nat) : Bytes :=
  [n / 16777216 % 256, n / 65536 % 256, n / 256 % 256, n % 256]

/-- Big-endian 64-bit bytes of an unsigned value below 2^64. -/
def u64be (n : Nat) : Bytes :=
  [n / 72057594037927936 % 256, n / 281474976710656 % 256,
   n / 1099511627776 % 256, n / 4294967296 % 256,
   n / 16777216 % 256, n / 65536 % 256, n / 256 % 256, n % 256]

/-- 4-byte big-endian two's-complement representation of a signed value. -/
def int32be (v : Int) : Bytes := u32be ((v.emod 4294967296).toNat)

/-- 8-byte big-endian two's-complement representation of a signed value. -/
def int64be (v : Int) : Bytes := u64be ((v.emod 18446744073709551616).toNat)

/-- `struct.pack('>H', n)`: raises `struct.error` unless 0 <= n < 2^16. -/
def pack_H (n : Nat) : Except EncErr Bytes :=
  if n < 65536 then .ok (u16be n) else .error EncErr.structError

/-- `struct.pack('>cH', tag, n)`. -/
def pack_cH (tag : Nat) (n : Nat) : Except EncErr Bytes :=
  (pack_H n).map (fun bs => tag :: bs)

/-- `struct.pack('>l', v)`: raises `struct.error` unless -2^31 <= v < 2^31. -/
def pack_l (v : Int) : Except EncErr Bytes :=
  if -2147483648 ≤ v ∧ v < 2147483648 then .ok (int32be v)
  else .error EncErr.structError

/-- `struct.pack('>q', v)`: raises `struct.error` unless -2^63 <= v < 2^63. -/
def pack_q (v : Int) : Except EncErr Bytes :=
  if -9223372036854775808 ≤ v ∧ v < 9223372036854775808 then .ok (int64be v)
  else .error EncErr.structError

/-- `struct.pack('>B', n)`: raises `struct.error` unless 0 <= n < 256. -/
def pack_B (n : Nat) : Except EncErr Bytes :=
  if n < 256 then .ok [n] else .error EncErr.structError

/-- UTF-8 bytes of one Unicode code point (the py2 `'utf-8'` codec applied
to a single character). -/
def utf8Char (c : Nat) : Bytes :=
  if c < 128 then [c]
  else if c < 2048 then [192 + c / 64, 128 + c % 64]
  else if c < 65536 then [224 + c / 4096, 128 + c / 64 % 64, 128 + c % 64]
  else [240 + c / 262144, 128 + c / 4096 % 64, 128 + c / 64 % 64, 128 + c % 64]

/-- `value.encode('utf-8')` for a py2 unicode value given as its list of
code points. -/
def utf8Encode (cs : List Nat) : Bytes :=
  match cs with
  | [] => []
  | c :: rest => utf8Char c ++ utf8Encode rest

/-- A naive py2 `datetime.datetime`: the fields its `timetuple()` exposes,
plus the microsecond field (which `timetuple()` drops). -/
structure Datetime where
  year : Nat
  month : Nat
  day : Nat
  hour : Nat
  minute : Nat
  second : Nat
  microsecond : Nat

/-- Cumulative day count before the first of each month in a non-leap year
(the proleptic-Gregorian table behind `calendar.timegm`). -/
def daysBeforeMonth (m : Nat) : Nat :=
  match m with
  | 1 => 0 | 2 => 31 | 3 => 59 | 4 => 90 | 5 => 120 | 6 => 151
  | 7 => 181 | 8 => 212 | 9 => 243 | 10 => 273 | 11 => 304 | _ => 334

/-- Gregorian leap-year test. -/
def isLeap (y : Nat) : Bool := y % 4 == 0 && (y % 100 != 0 || y % 400 == 0)

/-- Proleptic-Gregorian ordinal of a date (day 1 is 0001-01-01), as in
py2 `datetime.date.toordinal`; 1970-01-01 is ordinal 719163. -/
def toOrdinal (y m d : Nat) : Nat :=
  365 * (y - 1) + (y - 1) / 4 - (y - 1) / 100 + (y - 1) / 400
    + daysBeforeMonth m + (if 2 < m ∧ isLeap y then 1 else 0) + d

/-- `calendar.timegm(value.timetuple())`: seconds since the UTC epoch of
the whole-second part of the datetime.  `timetuple()` only carries
year/month/day/hour/minute/second, so the microsecond field never
reaches this computation. -/
def timegm (dt : Datetime) : Int :=
  ((toOrdinal dt.year dt.month dt.day : Int) - 719163) * 86400
    + dt.hour * 3600 + dt.minute * 60 + dt.second

/-- `Encoder.encode_null`: the single byte `N`. -/
def encode_null : Bytes := [0x4E]

/-- `Encoder.encode_boolean`: `T` for true, `F` for false. -/
def encode_boolean (b : Bool) : Bytes := if b then [0x54] else [0x46]

/-- `Encoder.encode_int`: `pack('>cl', b'I', value)`. -/
def encode_int (v : Int) : Except EncErr Bytes :=
  (pack_l v).map (fun bs => 0x49 :: bs)

/-- `Encoder.encode_long`: `pack('>cq', b'L', value)`. -/
def encode_long (v : Int) : Except EncErr Bytes :=
  (pack_q v).map (fun bs => 0x4C :: bs)

/-- `Encoder.encode_double`: `pack('>cd', b'D', value)`.  The IEEE-754
binary64 bit pattern of the py2 float is modeled directly as its
64-bit unsigned value. -/
def encode_double (bits : Nat) : Bytes := 0x44 :: u64be bits

/-- `Encoder.encode_date`:
`pack('>cq', b'd', int(calendar.timegm(value.timetuple())) * 1000)`.
Note the milliseconds count is the whole-second epoch time times 1000:
`timetuple()` has already discarded the microsecond field. -/
def encode_date (dt : Datetime) : Except EncErr Bytes :=
  (pack_q (timegm dt * 1000)).map (fun bs => 0x64 :: bs)

/-- `Encoder.encode_unicode`: the character-counted chunking loop.  Each
iteration with more than 65535 characters left emits
`pack('>cH', b's', 65535)` plus the UTF-8 encoding of the first 65535
characters; the terminal chunk is `pack('>cH', b'S', len(value))` plus
the UTF-8 encoding of the remainder. -/
def encode_unicode (value : List Nat) : Except EncErr Bytes :=
  if _h : 65535 < value.length then
    match pack_cH 0x73 65535 with
    | .error e => .error e
    | .ok hdr =>
      match encode_unicode (value.drop 65535) with
      | .error e => .error e
      | .ok rest => .ok (hdr ++ utf8Encode (value.take 65535) ++ rest)
  else
    match pack_cH 0x53 value.length with
    | .error e => .error e
    | .ok hdr => .ok (hdr ++ utf8Encode value)
termination_by value.length
decreasing_by simp [List.length_drop]; omega

/-- The byte-chunking loop of `Encoder.encode_string`, applied after the
ASCII check: continuation chunks `pack('>cH', b's', 65535)` + 65535 raw
bytes, terminal chunk `pack('>cH', b'S', len(value.decode('utf-8')))` +
the remaining bytes.  Every caller has already checked the bytes are
ASCII, so the UTF-8-decoded character count of the terminal chunk equals
its byte count. -/
def encodeStringChunks (value : Bytes) : Except EncErr Bytes :=
  if _h : 65535 < value.length then
    match pack_cH 0x73 65535 with
    | .error e => .error e
    | .ok hdr =>
      match encodeStringChunks (value.drop 65535) with
      | .error e => .error e
      | .ok rest => .ok (hdr ++ value.take 65535 ++ rest)
  else
    match pack_cH 0x53 value.length with
    | .error e => .error e
    | .ok hdr => .ok (hdr ++ value)
termination_by value.length
decreasing_by simp [List.length_drop]; omega

/-- `Encoder.encode_string`: `value.encode('ascii')` on a py2 byte string
first decodes it with the ASCII codec, raising `UnicodeDecodeError` as
soon as any byte is at or above 0x80; the handler catches that and
raises the TypeError the spec calls `StringEncodingError`.  On success
the bytes are unchanged and the chunking loop runs. -/
def encode_string (value : Bytes) : Except EncErr Bytes :=
  if value.all (fun b => b < 128) then encodeStringChunks value
  else .error EncErr.stringEncodingError

/-- `Encoder.encode_binary`: chunking identical to the byte-string loop but
with tags `b`/`B` and no content restriction. -/
def encode_binary (value : Bytes) : Except EncErr Bytes :=
  if _h : 65535 < value.length then
    match pack_cH 0x62 65535 with
    | .error e => .error e
    | .ok hdr =>
      match encode_binary (value.drop 65535) with
      | .error e => .error e
      | .ok rest => .ok (hdr ++ value.take 65535 ++ rest)
  else
    match pack_cH 0x42 value.length with
    | .error e => .error e
    | .ok hdr => .ok (hdr ++ value)
termination_by value.length
decreasing_by simp [List.length_drop]; omega

/-- The runtime values the encoder can be handed, one constructor per py2
runtime type that can reach `Encoder._encode`.  The protocol data
carriers are flattened into constructor fields.

Modelled from the spec: `mustaine/protocol.py` (the plain data-carrier
classes `Call`, `Object`, `Remote`, `Binary`) is not among the sources;
spec section 3 gives their shapes: a call carries method name, ordered
arguments, a header mapping, a major version and an overload flag; a
remote reference carries a type-name string and a URL string; a binary
blob an opaque byte sequence; a typed object a fully-qualified type name
and an ordered field mapping exposed through state extraction.
`other` stands for a value of any runtime type outside the registered
set (for example a py2 `set`), carrying its type name. -/
inductive Value where
  | null
  | bool (b : Bool)
  | int (n : Int)
  | long (n : Int)
  | float (bits : Nat)
  | date (dt : Datetime)
  | unicode (cs : List Nat)
  | str (bs : Bytes)
  | list (xs : List Value)
  | tuple (xs : List Value)
  | dict (kvs : List (Value × Value))
  | obj (module objName : String) (state : List (Value × Value))
  | remote (typeName url : Bytes)
  | binary (bs : Bytes)
  | call (method : Bytes) (headers : List (Value × Value)) (args : List Value)
      (version : Nat) (overload : Bool)
  | other (typeName : String)

/-- The registered `data_type` keys of the `@encoder_for(...)` handlers. -/
inductive PyType where
  | noneT | boolT | intT | longT | floatT | dateT | unicodeT | strT
  | listT | tupleT | dictT | objectT | remoteT | binaryT | callT
deriving DecidableEq

/-- py2 `isinstance(value, data_type)` for the registered types.  The only
subtype relation among them is bool < int (`bool` is a declared subclass
of `int`), so a boolean value is an instance of both `bool` and `int`;
every other value matches exactly its own type. -/
def isInstance (v : Value) (t : PyType) : Bool :=
  match v, t with
  | Value.null, PyType.noneT => true
  | Value.bool _, PyType.boolT => true
  | Value.bool _, PyType.intT => true
  | Value.int _, PyType.intT => true
  | Value.long _, PyType.longT => true
  | Value.float _, PyType.floatT => true
  | Value.date _, PyType.dateT => true
  | Value.unicode _, PyType.unicodeT => true
  | Value.str _, PyType.strT => true
  | Value.list _, PyType.listT => true
  | Value.tuple _, PyType.tupleT => true
  | Value.dict _, PyType.dictT => true
  | Value.obj _ _ _, PyType.objectT => true
  | Value.remote _ _, PyType.remoteT => true
  | Value.binary _, PyType.binaryT => true
  | Value.call _ _ _ _ _, PyType.callT => true
  | _, _ => false

/-- The py2 name of the value's runtime type, as interpolated into the
"mustaine.encoder cannot serialize %s" message. -/
def pyTypeName (v : Value) : String :=
  match v with
  | Value.null => "NoneType"
  | Value.bool _ => "bool"
  | Value.int _ => "int"
  | Value.long _ => "long"
  | Value.float _ => "float"
  | Value.date _ => "datetime.datetime"
  | Value.unicode _ => "unicode"
  | Value.str _ => "str"
  | Value.list _ => "list"
  | Value.tuple _ => "tuple"
  | Value.dict _ => "dict"
  | Value.obj _ _ _ => "Object"
  | Value.remote _ _ => "Remote"
  | Value.binary _ => "Binary"
  | Value.call _ _ _ _ _ => "Call"
  | Value.other n => n

/-- Modelled from the spec: the ordered dispatch table `_mustaine_encoders`.
`sort_mro` (src/mustaine/encoder.py) builds it by topologically sorting
the registered types against their declared ancestor sets with the
`toposort` utility (mustaine/utils/toposort.py, not among the sources),
reversing, and filtering to registered types; per spec section 4.1 the
resulting contract is that every subtype precedes every one of its
registered ancestors.  Among the registered types the only
subtype/ancestor pair is bool < int, so the contract pins the order
exactly up to permutations of unrelated types, which dispatch cannot
observe (each non-bool value matches exactly one entry). -/
def registry : List PyType :=
  [PyType.noneT, PyType.boolT, PyType.intT, PyType.longT, PyType.floatT,
   PyType.dateT, PyType.unicodeT, PyType.strT, PyType.listT, PyType.tupleT,
   PyType.dictT, PyType.objectT, PyType.remoteT, PyType.binaryT, PyType.callT]

/-- The scan of `Encoder._encode`: walk the table and keep the first entry
whose `data_type` the value is an instance of (`break` on the first
hit); `none` when the loop falls through with no match. -/
def findEntry (ts : List PyType) (v : Value) : Option PyType :=
  match ts with
  | [] => none
  | t :: rest => if isInstance v t then some t else findEntry rest v

/-- An intermediate py2 object appearing in a `+` concatenation inside a
handler: either a byte string or a (type-tag, bytes) pair as returned
by a wrapped encoder method. -/
inductive PyObj where
  | bytes (bs : Bytes)
  | pair (tag : String) (bs : Bytes)

/-- py2 `+` on such objects: byte strings concatenate; concatenating a byte
string with a tuple raises TypeError. -/
def pyAdd (a b : PyObj) : Except EncErr PyObj :=
  match a, b with
  | PyObj.bytes x, PyObj.bytes y => .ok (PyObj.bytes (x ++ y))
  | _, _ => .error (EncErr.typeError "cannot concatenate str and tuple objects")

/-- `self.encode_string(...)` as seen from another handler: the attribute
lookup finds the `encoder_method_wrapper` built by `encoder_for(str)`,
whose wrapper returns the pair `(return_type, f(*args))` with
`RETURN_TYPES[str] = 'string'` — not the raw bytes. -/
def encode_string_wrapped (bs : Bytes) : Except EncErr (String × Bytes) :=
  (encode_string bs).map (fun b => ("string", b))

/-- `Encoder.encode_remote`:
`encoded = self.encode_string(obj.url)` (a (tag, bytes) pair, see
`encode_string_wrapped`), then
`pack('>2cH', b'r', b't', len(obj.type_name)) + obj.type_name + encoded`,
whose final `+` concatenates a byte string with a tuple. -/
def encode_remote (typeName url : Bytes) : Except EncErr Bytes :=
  match encode_string_wrapped url with
  | .error e => .error e
  | .ok encoded =>
    match pack_cH 0x74 typeName.length with
    | .error e => .error e
    | .ok thdr =>
      match pyAdd (PyObj.bytes ((0x72 :: thdr) ++ typeName))
          (PyObj.pair encoded.1 encoded.2) with
      | .error e => .error e
      | .ok (PyObj.bytes bs) => .ok bs
      | .ok (PyObj.pair _ bs) => .ok bs

mutual

/-- `Encoder._encode`: find the first matching dispatch entry and invoke
its wrapped handler; the wrapper pairs the handler's bytes with the
`RETURN_TYPES` tag of the entry (for `Object`, which has no
`RETURN_TYPES` entry, `encode_mobject` builds its own pair).  With no
matching entry the "mustaine.encoder cannot serialize" TypeError is
raised.  The mismatched fallthrough cases after a successful lookup are
unreachable: `findEntry` only returns an entry the value is an instance
of, and `isInstance` ties each constructor to its entry (a bool value
is also an instance of `intT`, but `boolT` precedes `intT` in the
table, so `findEntry` never answers `intT` for it). -/
def _encode (v : Value) : Except EncErr (String × Bytes) :=
  match findEntry registry v with
  | none => .error (EncErr.unsupportedType (pyTypeName v))
  | some t =>
    match t, v with
    | PyType.noneT, _ => .ok ("null", encode_null)
    | PyType.boolT, Value.bool b => .ok ("bool", encode_boolean b)
    | PyType.intT, Value.int n => (encode_int n).map (fun bs => ("int", bs))
    | PyType.longT, Value.long n => (encode_long n).map (fun bs => ("long", bs))
    | PyType.floatT, Value.float bits => .ok ("double", encode_double bits)
    | PyType.dateT, Value.date dt => (encode_date dt).map (fun bs => ("date", bs))
    | PyType.unicodeT, Value.unicode cs =>
      (encode_unicode cs).map (fun bs => ("string", bs))
    | PyType.strT, Value.str bs => (encode_string bs).map (fun b => ("string", b))
    | PyType.listT, Value.list xs => (encode_list xs).map (fun b => ("list", b))
    | PyType.tupleT, Value.tuple xs => (encode_tuple xs).map (fun b => ("list", b))
    | PyType.dictT, Value.dict kvs => (encode_map kvs).map (fun b => ("map", b))
    | PyType.objectT, Value.obj module objName st => encode_mobject module objName st
    | PyType.remoteT, Value.remote tn url =>
      (encode_remote tn url).map (fun b => ("remote", b))
    | PyType.binaryT, Value.binary bs =>
      (encode_binary bs).map (fun b => ("binary", b))
    | PyType.callT, Value.call m hs args ver ov =>
      (encode_call m hs args ver ov).map (fun b => ("call", b))
    | _, _ => .error (EncErr.unsupportedType (pyTypeName v))

termination_by 2 * sizeOf v
decreasing_by all_goals (simp_wf; try omega)

/-- `reduce(operator.add, map(self.encode, obj), b'')` of `encode_list` and
`encode_tuple`: encode every element in order (`self.encode` is
`self._encode(obj)[1]`) and concatenate. -/
def encodeListItems (xs : List Value) : Except EncErr Bytes :=
  match xs with
  | [] => .ok []
  | x :: rest =>
    match _encode x with
    | .error e => .error e
    | .ok pr =>
      match encodeListItems rest with
      | .error e => .error e
      | .ok rb => .ok (pr.2 ++ rb)

termination_by 2 * sizeOf xs
decreasing_by all_goals (simp_wf; try omega)

/-- `Encoder.encode_list`: `pack('>2cl', b'V', b'l', -1)` + elements + `z`
(variable-length framing with sentinel count -1). -/
def encode_list (xs : List Value) : Except EncErr Bytes :=
  match encodeListItems xs with
  | .error e => .error e
  | .ok body =>
    match pack_l (-1) with
    | .error e => .error e
    | .ok cnt => .ok ([0x56, 0x6C] ++ cnt ++ body ++ [0x7A])

termination_by 2 * sizeOf xs + 1
decreasing_by all_goals (simp_wf; try omega)

/-- `Encoder.encode_tuple`: `pack('>2cl', b'V', b'l', len(obj))` +
elements + `z`. -/
def encode_tuple (xs : List Value) : Except EncErr Bytes :=
  match encodeListItems xs with
  | .error e => .error e
  | .ok body =>
    match pack_l (xs.length : Int) with
    | .error e => .error e
    | .ok cnt => .ok ([0x56, 0x6C] ++ cnt ++ body ++ [0x7A])

termination_by 2 * sizeOf xs + 1
decreasing_by all_goals (simp_wf; try omega)

/-- `Encoder.encode_keyval`: `self.encode(pair[0]) + self.encode(pair[1])`. -/
def encode_keyval (k v : Value) : Except EncErr Bytes :=
  match _encode k with
  | .error e => .error e
  | .ok pk =>
    match _encode v with
    | .error e => .error e
    | .ok pv => .ok (pk.2 ++ pv.2)

termination_by 2 * sizeOf k + 2 * sizeOf v + 1
decreasing_by all_goals (simp_wf; try omega)

/-- `reduce(operator.add, map(self.encode_keyval, obj.items()), b'')`:
encode the key/value pairs in iteration order and concatenate. -/
def encodeKeyvals (kvs : List (Value × Value)) : Except EncErr Bytes :=
  match kvs with
  | [] => .ok []
  | (k, v) :: rest =>
    match encode_keyval k v with
    | .error e => .error e
    | .ok kvb =>
      match encodeKeyvals rest with
      | .error e => .error e
      | .ok rb => .ok (kvb ++ rb)

termination_by 2 * sizeOf kvs
decreasing_by all_goals (simp_wf; try omega)

/-- `Encoder.encode_map`: `pack('>c', b'M')` + encoded pairs + `z`. -/
def encode_map (kvs : List (Value × Value)) : Except EncErr Bytes :=
  match encodeKeyvals kvs with
  | .error e => .error e
  | .ok body => .ok ([0x4D] ++ body ++ [0x7A])

termination_by 2 * sizeOf kvs + 1
decreasing_by all_goals (simp_wf; try omega)

/-- `Encoder.encode_mobject`: the fully-qualified type name is
`'.'.join([type(obj).__module__, type(obj).__name__])`; the result is
the pair `(type(obj).__name__, 'M' + 't'-header + type-name bytes +
encoded `__getstate__` pairs + 'z')` (no `RETURN_TYPES` entry for
`Object`, so the handler supplies its own tag). -/
def encode_mobject (module objName : String) (st : List (Value × Value)) :
    Except EncErr (String × Bytes) :=
  match pack_cH 0x74 (ascii (module ++ "." ++ objName)).length with
  | .error e => .error e
  | .ok thdr =>
    match encodeKeyvals st with
    | .error e => .error e
    | .ok body =>
      .ok (objName,
        [0x4D] ++ thdr ++ ascii (module ++ "." ++ objName) ++ body ++ [0x7A])

termination_by 2 * sizeOf st + 1
decreasing_by all_goals (simp_wf; try omega)

/-- The header loop of `Encoder.encode_call`: each key must be a py2 `str`
(else TypeError "Call header keys must be strings"); a header entry is
`pack('>cH', b'H', len(header))` + header bytes + the full encoding of
the header value. -/
def encodeHeaders (hs : List (Value × Value)) : Except EncErr Bytes :=
  match hs with
  | [] => .ok []
  | (k, hv) :: rest =>
    match k with
    | Value.str kbs =>
      match pack_cH 0x48 kbs.length with
      | .error e => .error e
      | .ok hh =>
        match _encode hv with
        | .error e => .error e
        | .ok pr =>
          match encodeHeaders rest with
          | .error e => .error e
          | .ok rb => .ok (hh ++ kbs ++ pr.2 ++ rb)
    | _ => .error (EncErr.typeError "Call header keys must be strings")

termination_by 2 * sizeOf hs
decreasing_by all_goals (simp_wf; try omega)

/-- The argument loop of `Encoder.encode_call`: each argument goes through
`self.encode_arg` (the tagged entry point `_encode`); with the overload
flag set, `method += b'_' + six.b(data_type)`; the raw bytes (only) are
appended to the argument section. -/
def encodeArgsLoop (ov : Bool) (method arguments : Bytes) (args : List Value) :
    Except EncErr (Bytes × Bytes) :=
  match args with
  | [] => .ok (method, arguments)
  | a :: rest =>
    match _encode a with
    | .error e => .error e
    | .ok pr =>
      encodeArgsLoop ov (if ov then method ++ 0x5F :: ascii pr.1 else method)
        (arguments ++ pr.2) rest

termination_by 2 * sizeOf args
decreasing_by all_goals (simp_wf; try omega)

/-- `Encoder.encode_call`: header loop, argument loop, then
`pack('>cBB', b'c', call.version, 0)` + headers +
`pack('>cH', b'm', len(method))` + method bytes + argument bytes + `z`. -/
def encode_call (m : Bytes) (hs : List (Value × Value)) (args : List Value)
    (ver : Nat) (ov : Bool) : Except EncErr Bytes :=
  match encodeHeaders hs with
  | .error e => .error e
  | .ok hb =>
    match encodeArgsLoop ov m [] args with
    | .error e => .error e
    | .ok ma =>
      match pack_B ver with
      | .error e => .error e
      | .ok vb =>
        match pack_cH 0x6D ma.1.length with
        | .error e => .error e
        | .ok mh =>
          .ok (([0x63] ++ vb ++ [0x00]) ++ hb ++ mh ++ ma.1 ++ ma.2 ++ [0x7A])

termination_by 2 * sizeOf hs + 2 * sizeOf args + 1
decreasing_by all_goals (simp_wf; try omega)

end

/-- `Encoder.encode`: `self._encode(obj)[1]`. -/
def encode (v : Value) : Except EncErr Bytes := (_encode v).map (fun pr => pr.2)

/-- `Encoder.encode_arg`: `self._encode(obj)` (tag and bytes). -/
def encode_arg (v : Value) : Except EncErr (String × Bytes) := _encode v

/-- Module-level `encode_object`: build a (stateless) `Encoder` and call
`encode`. -/
def encode_object (v : Value) : Except EncErr Bytes := encode v

/-- Specification shape for the overload method suffix: underscore-joined
type tags of the argument pairs, appended in argument order. -/
def tagsJoin (pairs : List (String × Bytes)) : Bytes :=
  match pairs with
  | [] => []
  | p :: rest => (0x5F :: ascii p.1) ++ tagsJoin rest

/-- Specification shape for the argument section: the concatenated raw
bytes components of the argument pairs (tags excluded). -/
def bytesJoin (pairs : List (String × Bytes)) : Bytes :=
  match pairs with
  | [] => []
  | p :: rest => p.2 ++ bytesJoin rest

/-- Each argument sent through the argument-encode entry point, in order. -/
def mapArgs (args : List Value) : Except EncErr (List (String × Bytes)) :=
  match args with
  | [] => .ok []
  | a :: rest =>
    match encode_arg a with
    | .error e => .error e
    | .ok pr =>
      match mapArgs rest with
      | .error e => .error e
      | .ok prs => .ok (pr :: prs)

/-- The milliseconds count claim C1 describes, in the words of the spec:
milliseconds since the UTC epoch with only sub-millisecond precision
truncated away, so the whole milliseconds contributed by the
microsecond field are kept. -/
def claimedDateMillis (dt : Datetime) : Int :=
  timegm dt * 1000 + dt.microsecond / 1000


/-! Helper lemmas shared across the claim theorems. -/

theorem map_snd_tag (r : Except EncErr Bytes) (tag : String) :
    ((r.map (fun bs => (tag, bs))).map (fun pr : String × Bytes => pr.2)) = r := by
  cases r <;> rfl

theorem dispatchNull : _encode Value.null = .ok ("null", encode_null) := by
  simp [_encode, findEntry, registry, isInstance]

theorem dispatchBool (b : Bool) :
    _encode (Value.bool b) = .ok ("bool", encode_boolean b) := by
  simp [_encode, findEntry, registry, isInstance]

theorem dispatchInt (n : Int) :
    _encode (Value.int n) = (encode_int n).map (fun bs => ("int", bs)) := by
  simp [_encode, findEntry, registry, isInstance]

theorem dispatchDate (dt : Datetime) :
    _encode (Value.date dt) = (encode_date dt).map (fun bs => ("date", bs)) := by
  simp [_encode, findEntry, registry, isInstance]

theorem dispatchUnicode (cs : List Nat) :
    _encode (Value.unicode cs) = (encode_unicode cs).map (fun bs => ("string", bs)) := by
  simp [_encode, findEntry, registry, isInstance]

theorem dispatchStr (bs : Bytes) :
    _encode (Value.str bs) = (encode_string bs).map (fun b => ("string", b)) := by
  simp [_encode, findEntry, registry, isInstance]

theorem dispatchRemote (tn url : Bytes) :
    _encode (Value.remote tn url) = (encode_remote tn url).map (fun b => ("remote", b)) := by
  simp [_encode, findEntry, registry, isInstance]

theorem dispatchCall (m : Bytes) (hs : List (Value × Value)) (args : List Value)
    (ver : Nat) (ov : Bool) :
    _encode (Value.call m hs args ver ov)
      = (encode_call m hs args ver ov).map (fun b => ("call", b)) := by
  simp [_encode, findEntry, registry, isInstance]

theorem dispatchOther (s : String) :
    _encode (Value.other s) = .error (EncErr.unsupportedType s) := by
  simp [_encode, findEntry, registry, isInstance, pyTypeName]

theorem encodeBool_val (b : Bool) : encode (Value.bool b) = .ok (encode_boolean b) := by
  rw [encode, dispatchBool]; rfl

theorem encodeInt_val (n : Int) : encode (Value.int n) = encode_int n := by
  rw [encode, dispatchInt, map_snd_tag]

theorem encodeDate_val (dt : Datetime) : encode (Value.date dt) = encode_date dt := by
  rw [encode, dispatchDate, map_snd_tag]

theorem encodeUnicode_val (cs : List Nat) :
    encode (Value.unicode cs) = encode_unicode cs := by
  rw [encode, dispatchUnicode, map_snd_tag]

theorem encodeStr_val (bs : Bytes) : encode (Value.str bs) = encode_string bs := by
  rw [encode, dispatchStr, map_snd_tag]

theorem encodeRemote_val (tn url : Bytes) :
    encode (Value.remote tn url) = encode_remote tn url := by
  rw [encode, dispatchRemote, map_snd_tag]

theorem encodeCall_val (m : Bytes) (hs : List (Value × Value)) (args : List Value)
    (ver : Nat) (ov : Bool) :
    encode (Value.call m hs args ver ov) = encode_call m hs args ver ov := by
  rw [encode, dispatchCall, map_snd_tag]

theorem encode_unicode_small (value : List Nat) (h : value.length ≤ 65535) :
    encode_unicode value = .ok ([0x53] ++ u16be value.length ++ utf8Encode value) := by
  rw [encode_unicode.eq_def, dif_neg (by omega : ¬ 65535 < value.length)]
  have hp : pack_cH 0x53 value.length = .ok (0x53 :: u16be value.length) := by
    simp only [pack_cH, pack_H, if_pos (by omega : value.length < 65536)]
    rfl
  rw [hp]
  rfl

theorem encode_unicode_boundary (cs : List Nat) (h : cs.length = 65536) :
    encode_unicode cs
      = .ok (([0x73] ++ u16be 65535 ++ utf8Encode (cs.take 65535))
          ++ ([0x53] ++ u16be 1 ++ utf8Encode (cs.drop 65535))) := by
  rw [encode_unicode.eq_def, dif_pos (by omega : 65535 < cs.length)]
  have hp : pack_cH 0x73 65535 = .ok (0x73 :: u16be 65535) := rfl
  rw [hp]
  have hd : (cs.drop 65535).length = 1 := by simp [List.length_drop, h]
  rw [encode_unicode_small (cs.drop 65535) (by omega), hd]
  rfl

theorem findEntry_eq_find (ts : List PyType) (v : Value) :
    findEntry ts v = ts.find? (fun t => isInstance v t) := by
  induction ts with
  | nil => rfl
  | cons t rest ih =>
    cases h : isInstance v t <;> simp [findEntry, List.find?_cons, h, ih]

theorem encodeStringChunks_ok (value : Bytes) :
    ∃ bs, encodeStringChunks value = .ok bs := by
  generalize hn : value.length = n
  induction n using Nat.strong_induction_on generalizing value with
  | _ n ih =>
    rw [encodeStringChunks.eq_def]
    by_cases h : 65535 < value.length
    · rw [dif_pos h]
      obtain ⟨bs, hbs⟩ := ih ((value.drop 65535).length)
        (by simp [List.length_drop]; omega) (value.drop 65535) rfl
      rw [hbs]
      exact ⟨_, rfl⟩
    · rw [dif_neg h]
      have hp : pack_cH 0x53 value.length = .ok (0x53 :: u16be value.length) := by
        simp only [pack_cH, pack_H, if_pos (by omega : value.length < 65536)]
        rfl
      rw [hp]
      exact ⟨_, rfl⟩

theorem encode_remote_error (tn url : Bytes) :
    ∃ e, encode_remote tn url = .error e := by
  cases hw : encode_string_wrapped url with
  | error e => exact ⟨e, by simp [encode_remote, hw]⟩
  | ok p =>
    cases hp : pack_cH 0x74 tn.length with
    | error e => exact ⟨e, by simp [encode_remote, hw, hp]⟩
    | ok thdr =>
      exact ⟨EncErr.typeError "cannot concatenate str and tuple objects",
        by simp [encode_remote, hw, hp, pyAdd]⟩

theorem encodeArgsLoop_spec (args : List Value) :
    ∀ method arguments pairs, mapArgs args = .ok pairs →
      encodeArgsLoop true method arguments args
        = .ok (method ++ tagsJoin pairs, arguments ++ bytesJoin pairs) := by
  induction args with
  | nil =>
    intro m acc pairs h
    simp only [mapArgs] at h
    injection h with h
    subst h
    simp [encodeArgsLoop, tagsJoin, bytesJoin]
  | cons a rest ih =>
    intro m acc pairs h
    simp only [mapArgs, encode_arg] at h
    cases ha : _encode a with
    | error e => rw [ha] at h; cases h
    | ok pr =>
      rw [ha] at h
      cases hr : mapArgs rest with
      | error e => rw [hr] at h; cases h
      | ok prs =>
        rw [hr] at h
        injection h with h
        subst h
        simp only [encodeArgsLoop, ha, if_pos]
        rw [ih _ _ prs hr]
        simp [tagsJoin, bytesJoin, List.append_assoc]

theorem encodeCallOverload_spec (m : Bytes) (hs : List (Value × Value))
    (args : List Value) (ver : Nat) (pairs : List (String × Bytes)) (hb : Bytes)
    (hargs : mapArgs args = .ok pairs)
    (hhs : encodeHeaders hs = .ok hb)
    (hver : ver < 256)
    (hlen : (m ++ tagsJoin pairs).length < 65536) :
    encode (Value.call m hs args ver true)
      = .ok ([0x63, ver, 0x00] ++ hb
          ++ [0x6D] ++ u16be (m ++ tagsJoin pairs).length
          ++ (m ++ tagsJoin pairs) ++ bytesJoin pairs ++ [0x7A]) := by
  rw [encodeCall_val]
  simp only [encode_call]
  rw [hhs, encodeArgsLoop_spec args m [] pairs hargs]
  simp only [pack_B, if_pos hver, pack_cH, pack_H, if_pos hlen]
  simp [Except.map, List.append_assoc]

theorem evalArgInt1 :
    _encode (Value.int 1) = .ok ("int", [0x49, 0x00, 0x00, 0x00, 0x01]) := by
  rw [dispatchInt]; decide

theorem evalArgBar :
    _encode (Value.unicode (ascii "bar"))
      = .ok ("string", [0x53, 0x00, 0x03, 0x62, 0x61, 0x72]) := by
  rw [dispatchUnicode, encode_unicode_small (ascii "bar") (by decide)]
  decide

theorem c4_args_eval :
    mapArgs [Value.int 1, Value.unicode (ascii "bar")]
      = .ok [("int", [0x49, 0x00, 0x00, 0x00, 0x01]),
             ("string", [0x53, 0x00, 0x03, 0x62, 0x61, 0x72])] := by
  simp [mapArgs, encode_arg, evalArgInt1, evalArgBar]

theorem c4_headers_eval : encodeHeaders [] = .ok [] := by
  simp [encodeHeaders]

/-! The claim theorems. -/

/-- C1 counterexample: the claim says only sub-millisecond precision of the
timestamp is dropped, so the 500 whole milliseconds of
2020-01-01 00:00:00.500000 UTC would be preserved in the encoded count
(1577836800500).  The code instead encodes 1577836800000: the
microsecond field never reaches the count because `timetuple()` drops
it. -/
theorem C1_counterexample :
    encode (Value.date ⟨2020, 1, 1, 0, 0, 0, 500000⟩)
      ≠ .ok (0x64 :: int64be (claimedDateMillis ⟨2020, 1, 1, 0, 0, 0, 500000⟩)) := by
  rw [encodeDate_val]
  decide

/-- C1 (amended): for every timestamp whose millisecond count fits a signed
64-bit integer, encode returns the tag byte d followed by the 8-byte
big-endian signed count of milliseconds since the UTC epoch computed as
the whole-second epoch time times 1000: the entire sub-second part of
the input (the microsecond field), not merely its sub-millisecond part,
is dropped. -/
theorem C1_date_whole_second_millis (dt : Datetime)
    (h1 : -9223372036854775808 ≤ timegm dt * 1000)
    (h2 : timegm dt * 1000 < 9223372036854775808) :
    encode (Value.date dt) = .ok (0x64 :: int64be (timegm dt * 1000))
    ∧ (0x64 :: int64be (timegm dt * 1000)).length = 9 := by
  constructor
  · rw [encodeDate_val]
    simp only [encode_date, pack_q, if_pos (And.intro h1 h2)]
    rfl
  · rfl

theorem C1_witness :
    encode (Value.date ⟨2020, 1, 1, 0, 0, 0, 500000⟩)
      = .ok (0x64 :: int64be (timegm ⟨2020, 1, 1, 0, 0, 0, 500000⟩ * 1000)) :=
  (C1_date_whole_second_millis ⟨2020, 1, 1, 0, 0, 0, 500000⟩ (by decide) (by decide)).1

/-- C10: the milliseconds count written by the timestamp rule is the
whole-second epoch time times 1000, hence an integer multiple of 1000,
and the microsecond field of the input never influences the output: a
datetime with any sub-second component encodes to exactly the same
bytes as the same datetime with that component replaced by anything
else (in particular by zero). -/
theorem C10_subsecond_discarded :
    (∀ (dt : Datetime) (micro : Nat),
      encode (Value.date { dt with microsecond := micro }) = encode (Value.date dt))
    ∧ (∀ dt : Datetime, (1000 : Int) ∣ timegm dt * 1000) := by
  constructor
  · intro dt micro
    rw [encodeDate_val, encodeDate_val]
    cases dt
    rfl
  · intro dt
    exact dvd_mul_left 1000 (timegm dt)

/-- C2: a boolean value always encodes through the boolean rule to the
single tag byte T (0x54) for true and F (0x46) for false; the dispatch
scan resolves every boolean to the boolT entry — never the intT entry —
even though a boolean is also an instance of the declared supertype
int. -/
theorem C2_boolean_rule :
    (∀ b, encode (Value.bool b) = .ok (if b then [0x54] else [0x46]))
    ∧ (∀ b, findEntry registry (Value.bool b) = some PyType.boolT)
    ∧ (∀ b, isInstance (Value.bool b) PyType.intT = true) := by
  refine ⟨fun b => ?_, fun b => rfl, fun b => rfl⟩
  rw [encodeBool_val]
  cases b <;> rfl

/-- C3: every byte string containing a byte at or above 0x80 fails with the
StringEncodingError (the error telling the caller to use Binary or
unicode objects instead) — not any other error and not by
succeeding. -/
theorem C3_nonascii_str_error (bs : Bytes) (b : Nat) (hmem : b ∈ bs) (hge : 128 ≤ b) :
    encode (Value.str bs) = .error EncErr.stringEncodingError := by
  rw [encodeStr_val]
  have hfalse : bs.all (fun x => decide (x < 128)) = false := by
    cases hall : bs.all (fun x => decide (x < 128)) with
    | false => rfl
    | true =>
      exfalso
      have hx := List.all_eq_true.mp hall b hmem
      simp at hx
      omega
  simp [encode_string, hfalse]

theorem C3_witness :
    ((200 : Nat) ∈ ([200] : Bytes) ∧ 128 ≤ 200)
    ∧ encode (Value.str [200]) = .error EncErr.stringEncodingError :=
  ⟨⟨by decide, by decide⟩, C3_nonascii_str_error [200] 200 (by decide) (by decide)⟩

/-- C4 counterexample: the claim's concrete example writes a 16-bit method
name length of 11, but the overloaded method name foo_int_string has 14
bytes and the code writes 14 (the length is taken after the tag
suffixes are appended), so the claimed byte sequence is not
produced. -/
theorem C4_counterexample :
    encode (Value.call (ascii "foo") [] [Value.int 1, Value.unicode (ascii "bar")] 1 true)
      ≠ .ok ([0x63, 0x01, 0x00] ++ [0x6D, 0x00, 0x0B] ++ ascii "foo_int_string"
          ++ [0x49, 0x00, 0x00, 0x00, 0x01] ++ [0x53, 0x00, 0x03, 0x62, 0x61, 0x72]
          ++ [0x7A]) := by
  rw [encodeCallOverload_spec (ascii "foo") [] [Value.int 1, Value.unicode (ascii "bar")] 1
      [("int", [0x49, 0x00, 0x00, 0x00, 0x01]), ("string", [0x53, 0x00, 0x03, 0x62, 0x61, 0x72])]
      [] c4_args_eval c4_headers_eval (by decide) (by decide)]
  decide

/-- C4 (amended): for every call with the overload flag set (and in-range
version and method-name length), each argument is encoded via the
argument-encode entry point, its type tag is appended to the method
name joined by an underscore before the method-name field is written,
and only the raw bytes are concatenated into the argument section; the
example call to foo with version 1, no headers and arguments
[32-bit int 1, text "bar"] therefore encodes as c 01 00 + m + 16-bit
length 14 + the bytes of foo_int_string + the encoding of 1 + the
encoding of "bar" + z. -/
theorem C4_overload_naming (m : Bytes) (hs : List (Value × Value))
    (args : List Value) (ver : Nat) (pairs : List (String × Bytes)) (hb : Bytes)
    (hargs : mapArgs args = .ok pairs)
    (hhs : encodeHeaders hs = .ok hb)
    (hver : ver < 256)
    (hlen : (m ++ tagsJoin pairs).length < 65536) :
    encode (Value.call m hs args ver true)
      = .ok ([0x63, ver, 0x00] ++ hb
          ++ [0x6D] ++ u16be (m ++ tagsJoin pairs).length
          ++ (m ++ tagsJoin pairs) ++ bytesJoin pairs ++ [0x7A]) :=
  encodeCallOverload_spec m hs args ver pairs hb hargs hhs hver hlen

theorem C4_witness :
    encode (Value.call (ascii "foo") [] [Value.int 1, Value.unicode (ascii "bar")] 1 true)
      = .ok ([0x63, 0x01, 0x00] ++ [0x6D, 0x00, 0x0E] ++ ascii "foo_int_string"
          ++ [0x49, 0x00, 0x00, 0x00, 0x01] ++ [0x53, 0x00, 0x03, 0x62, 0x61, 0x72]
          ++ [0x7A]) :=
  (C4_overload_naming (ascii "foo") [] [Value.int 1, Value.unicode (ascii "bar")] 1
      [("int", [0x49, 0x00, 0x00, 0x00, 0x01]), ("string", [0x53, 0x00, 0x03, 0x62, 0x61, 0x72])]
      [] c4_args_eval c4_headers_eval (by decide) (by decide)).trans (by decide)

/-- C5: a decoded-text value of exactly 65536 characters encodes as exactly
one continuation chunk (s + 16-bit count 65535 + the first 65535
characters UTF-8 encoded) followed by exactly one terminal chunk
(S + 16-bit count 1 + the last character UTF-8 encoded); any text of at
most 65535 characters — including the empty text with count 0 —
encodes as a single terminal chunk (S + 16-bit character count + the
UTF-8 encoding) with no continuation chunk. -/
theorem C5_text_chunk_boundary :
    (∀ cs : List Nat, cs.length = 65536 →
      encode (Value.unicode cs)
        = .ok (([0x73] ++ u16be 65535 ++ utf8Encode (cs.take 65535))
            ++ ([0x53] ++ u16be 1 ++ utf8Encode (cs.drop 65535))))
    ∧ (∀ cs : List Nat, cs.length ≤ 65535 →
      encode (Value.unicode cs)
        = .ok ([0x53] ++ u16be cs.length ++ utf8Encode cs)) := by
  constructor
  · intro cs h
    rw [encodeUnicode_val, encode_unicode_boundary cs h]
  · intro cs h
    rw [encodeUnicode_val, encode_unicode_small cs h]

theorem C5_witness :
    encode (Value.unicode (List.replicate 65536 97))
      = .ok (([0x73] ++ u16be 65535 ++ utf8Encode ((List.replicate 65536 97).take 65535))
          ++ ([0x53] ++ u16be 1 ++ utf8Encode ((List.replicate 65536 97).drop 65535)))
    ∧ encode (Value.unicode [])
      = .ok ([0x53] ++ u16be ([] : List Nat).length ++ utf8Encode []) :=
  ⟨C5_text_chunk_boundary.1 (List.replicate 65536 97) (List.length_replicate 65536 97),
   C5_text_chunk_boundary.2 [] (by decide)⟩

/-- C6: for every 32-bit signed integer v, encode produces exactly 5 bytes:
the tag byte I followed by the 4-byte big-endian two's-complement
representation of v (whose big-endian recombination is v modulo
2^32). -/
theorem C6_int_wire_shape (v : Int) (h1 : -2147483648 ≤ v) (h2 : v < 2147483648) :
    encode (Value.int v) = .ok (0x49 :: int32be v)
    ∧ (0x49 :: int32be v).length = 5
    ∧ (int32be v).foldl (fun acc b => acc * 256 + b) 0 = (v.emod 4294967296).toNat := by
  refine ⟨?_, rfl, ?_⟩
  · rw [encodeInt_val]
    simp only [encode_int, pack_l, if_pos (And.intro h1 h2)]
    rfl
  · have h0 : 0 ≤ v.emod 4294967296 := Int.emod_nonneg v (by norm_num)
    have hlt : v.emod 4294967296 < 4294967296 := Int.emod_lt_of_pos v (by norm_num)
    simp only [int32be, u32be, List.foldl]
    omega

theorem C6_witness :
    encode (Value.int 42) = .ok (0x49 :: int32be 42)
    ∧ (0x49 :: int32be 42) = [0x49, 0x00, 0x00, 0x00, 0x2A] :=
  ⟨(C6_int_wire_shape 42 (by decide) (by decide)).1, by decide⟩

/-- C7: a value whose runtime type matches no registry entry fails with the
UnsupportedType error carrying the runtime type name and yields no
bytes; a value that does match is handled by the first matching entry
in registry order (the scan equals List.find? over the table). -/
theorem C7_dispatch_first_match :
    (∀ v, findEntry registry v = none →
      _encode v = .error (EncErr.unsupportedType (pyTypeName v)))
    ∧ (∀ v, findEntry registry v = registry.find? (fun t => isInstance v t))
    ∧ (∀ s, _encode (Value.other s) = .error (EncErr.unsupportedType s)) := by
  refine ⟨fun v h => ?_, fun v => findEntry_eq_find registry v, fun s => dispatchOther s⟩
  rw [_encode.eq_def, h]

theorem C7_witness :
    findEntry registry (Value.other "set") = none
    ∧ _encode (Value.other "set") = .error (EncErr.unsupportedType "set") :=
  ⟨by decide, C7_dispatch_first_match.1 (Value.other "set") (by decide)⟩

/-- C8: the code never produces the r t + type-name + encoded-URL bytes the
claim describes: `self.encode_string` returns the wrapped
(tag, bytes) pair, and concatenating the packed prefix with that tuple
raises a TypeError, so encoding any remote reference fails (with the
concatenation TypeError for an ASCII URL, and in every case with some
error rather than bytes). -/
theorem C8_remote_always_fails :
    (∀ tn url : Bytes, url.all (fun b => decide (b < 128)) = true → tn.length < 65536 →
      encode (Value.remote tn url)
        = .error (EncErr.typeError "cannot concatenate str and tuple objects"))
    ∧ (∀ tn url bs : Bytes, encode (Value.remote tn url) ≠ .ok bs) := by
  constructor
  · intro tn url hall htn
    rw [encodeRemote_val]
    obtain ⟨sb, hsb⟩ := encodeStringChunks_ok url
    have hw : encode_string_wrapped url = .ok ("string", sb) := by
      simp [encode_string_wrapped, encode_string, hall, hsb, Except.map]
    have hp : pack_cH 0x74 tn.length = .ok (0x74 :: u16be tn.length) := by
      simp only [pack_cH, pack_H, if_pos htn]
      rfl
    simp [encode_remote, hw, hp, pyAdd]
  · intro tn url bs hok
    rw [encodeRemote_val] at hok
    obtain ⟨e, he⟩ := encode_remote_error tn url
    rw [he] at hok
    cases hok

theorem C8_witness :
    encode (Value.remote (ascii "example.Foo") (ascii "http://example.com/x"))
      = .error (EncErr.typeError "cannot concatenate str and tuple objects") :=
  C8_remote_always_fails.1 (ascii "example.Foo") (ascii "http://example.com/x")
    (by decide) (by decide)

/-- C9: the argument-encode entry point performs the same dispatch as
encode and returns a (typeTag, bytes) pair whose bytes component equals
what encode returns; the tag is the handler's short type tag, e.g.
"int" for a 32-bit integer value and "string" for a decoded-text
value. -/
theorem C9_encode_arg_pairs :
    (∀ v pr, encode_arg v = .ok pr → encode v = .ok pr.2)
    ∧ (∀ n : Int, -2147483648 ≤ n → n < 2147483648 →
      encode_arg (Value.int n) = .ok ("int", 0x49 :: int32be n))
    ∧ (∀ cs bs, encode_unicode cs = .ok bs →
      encode_arg (Value.unicode cs) = .ok ("string", bs)) := by
  refine ⟨fun v pr h => ?_, fun n h1 h2 => ?_, fun cs bs h => ?_⟩
  · simp only [encode_arg] at h
    simp [encode, h, Except.map]
  · simp only [encode_arg]
    rw [dispatchInt]
    simp only [encode_int, pack_l, if_pos (And.intro h1 h2)]
    rfl
  · simp only [encode_arg]
    rw [dispatchUnicode, h]
    rfl

theorem C9_witness :
    encode_arg (Value.int 5) = .ok ("int", 0x49 :: int32be 5)
    ∧ encode (Value.int 5) = .ok (0x49 :: int32be 5) := by
  have h := C9_encode_arg_pairs.2.1 5 (by decide) (by decide)
  exact ⟨h, C9_encode_arg_pairs.1 (Value.int 5) ("int", 0x49 :: int32be 5) h⟩
